import Mathlib

/-!
Verification of the TAL clause parsers and repeat-loop runtime of
`src/chameleon/tal.py` (chameleon).

The Python source is shallowly embedded below.  Strings are modelled as
`String`/`List Char`; the character classes of the Python regexes
(`\s`, `\d`, `\w`) are modelled by their ASCII meaning (the claims and the
source grammars only exercise ASCII input; `NAME` is an explicit ASCII
class in the source).  Python exceptions are modelled by `Except` with an
error type distinguishing the exception classes; Python `dict` /
`OrderedDict` are modelled by association lists with unique keys updated
in place (`alSet`), which reproduces the insertion-order semantics of the
source.
-/

namespace Tal

/-- Python `\s` / `str.strip()` whitespace, ASCII part. -/
def isPySpace (c : Char) : Bool :=
  c = ' ' || c = '\t' || c = '\n' || c = '\r' || c = '\x0b' || c = '\x0c'

/-- The NUL character used by `split_parts` as its escape sentinel. -/
def nulChar : Char := '\x00'

/-- The `List.isPrefixOf` for characters, spelled out. -/
def startsList : List Char → List Char → Bool
  | [], _ => true
  | _ :: _, [] => false
  | a :: as, b :: bs => a = b && startsList as bs

/-- Python `str.split(sep)` for a one-character separator. -/
def splitChar (sep : Char) : List Char → List (List Char)
  | [] => [[]]
  | c :: rest =>
    if c = sep then [] :: splitChar sep rest
    else
      match splitChar sep rest with
      | [] => [[c]]
      | h :: t => (c :: h) :: t

/-- Python `str.replace(";;", "\0")`: non-overlapping, left to right. -/
def replaceDouble : List Char → List Char
  | [] => []
  | [c] => [c]
  | c :: c2 :: rest =>
    if c = ';' ∧ c2 = ';' then nulChar :: replaceDouble rest
    else c :: replaceDouble (c2 :: rest)

/-- Python `str.replace("\0", ";")` on one part. -/
def restoreNul (cs : List Char) : List Char :=
  cs.map fun c => if c = nulChar then ';' else c

/-- Python `\w`, ASCII part (see module comment). -/
def isWordChar (c : Char) : Bool := c.isAlphanum || c = '_'

/-- The `\d{1,5};` branch of `ENTITY_RE` at the head of `cs`:
returns (consumed including the closing semicolon, rest).  The greedy
bounded repetition with backtracking succeeds exactly when the maximal
digit run has length 1..5 and is followed by a semicolon. -/
def tryNum (cs : List Char) : Option (List Char × List Char) :=
  match cs.dropWhile Char.isDigit with
  | ';' :: r2 =>
    let d := cs.takeWhile Char.isDigit
    if 1 ≤ d.length ∧ d.length ≤ 5 then some (d ++ [';'], r2) else none
  | _ => none

/-- The `\w{1,8};` branch of `ENTITY_RE` at the head of `cs`. -/
def tryWord (cs : List Char) : Option (List Char × List Char) :=
  match cs.dropWhile isWordChar with
  | ';' :: r2 =>
    let d := cs.takeWhile isWordChar
    if 1 ≤ d.length ∧ d.length ≤ 8 then some (d ++ [';'], r2) else none
  | _ => none

/-- The `(\d{1,5}|\w{1,8});` with the ordered-alternation semantics of `re`. -/
def tryBody (cs : List Char) : Option (List Char × List Char) :=
  match tryNum cs with
  | some r => some r
  | none => tryWord cs

/-- An optional single character (`#?` / `x?`): greedy with backtracking,
so the consumed variant is tried first and the un-consumed one on failure. -/
def withOpt (c : Char) (k : List Char → Option (List Char × List Char))
    (cs : List Char) : Option (List Char × List Char) :=
  match cs with
  | c' :: rest =>
    if c' = c then
      match k rest with
      | some (m, r) => some (c :: m, r)
      | none => k (c' :: rest)
    else k (c' :: rest)
  | [] => k []

/-- A match of `ENTITY_RE = (&(#?)(x?)(\d{1,5}|\w{1,8});)` anchored at the
head of `cs`: returns (matched text, rest). -/
def tryEntity (cs : List Char) : Option (List Char × List Char) :=
  match cs with
  | c :: rest =>
    if c = '&' then
      match withOpt '#' (withOpt 'x' tryBody) rest with
      | some (m, r) => some ('&' :: m, r)
      | none => none
    else none
  | [] => none

/-- The `ENTITY_RE.sub(r'\1;', arg)`: scan left to right, replacing each
non-overlapping match by itself followed by one extra semicolon.
`fuel` bounds the scan; each step consumes at least one character, so
`cs.length` is always enough. -/
def entitySubAux : Nat → List Char → List Char
  | 0, cs => cs
  | _ + 1, [] => []
  | fuel + 1, c :: rest =>
    match tryEntity (c :: rest) with
    | some (m, r) => m ++ ';' :: entitySubAux fuel r
    | none => c :: entitySubAux fuel rest

def entitySub (cs : List Char) : List Char :=
  entitySubAux cs.length cs

/-- The final step of `split_parts`: `if len(parts) > 1 and not
parts[-1].strip(): del parts[-1]`. -/
def dropTrailing (parts : List (List Char)) : List (List Char) :=
  if parts.length > 1 && (parts.getLast?.getD []).all isPySpace then
    parts.dropLast
  else parts

/-- The `split_parts` over raw characters (the string wrapper is below). -/
def splitPartsL (arg : List Char) : List (List Char) :=
  dropTrailing ((splitChar ';' (replaceDouble (entitySub arg))).map restoreNul)

/-- The `tal.split_parts`:  break at undoubled semicolons, protect character
entities and doubled semicolons, drop a trailing empty part. -/
def split_parts (arg : String) : List String :=
  (splitPartsL arg.data).map String.mk

example : split_parts "a;b" = ["a", "b"] := by decide
example : split_parts "a;;b" = ["a;b"] := by decide
example : split_parts "a;" = ["a"] := by decide
example : split_parts "x &amp; y; z" = ["x &amp; y", " z"] := by decide
example : split_parts "a\x00b" = ["a;b"] := by decide
example : split_parts "x; " = ["x"] := by decide
example : split_parts "&amp;x" = ["&amp;x"] := by decide
example : split_parts "a &#160; b; c" = ["a &#160; b", " c"] := by decide

/-- The `chameleon.exc.LanguageError(msg, arg)` (only its constructor data). -/
structure LanguageError where
  msg : String
  arg : String
  deriving DecidableEq, Repr

/-- Generic association-list lookup (Python `dict` access, unique keys). -/
def alFind {α : Type} : List (String × α) → String → Option α
  | [], _ => none
  | (k', v) :: rest, k => if k' = k then some v else alFind rest k

/-- Generic association-list update: replace in place, else append.  This is
Python `dict`/`OrderedDict` assignment (insertion order kept, an existing
key keeps its position). -/
def alSet {α : Type} : List (String × α) → String → α → List (String × α)
  | [], k, v => [(k, v)]
  | (k', v') :: rest, k, v =>
    if k' = k then (k, v) :: rest else (k', v') :: alSet rest k v

/-- The `ATTR_RE = \s*([^\s]+)\s+([^\s].*)\Z` (with `re.S`) matched against a
whole part: returns (name, expression) on success. -/
def matchAttr (part : String) : Option (String × String) :=
  let cs := part.data.dropWhile isPySpace
  let name := cs.takeWhile (fun c => !isPySpace c)
  if name.isEmpty then none
  else
    let r := cs.dropWhile (fun c => !isPySpace c)
    if r.isEmpty then none
    else
      let expr := r.dropWhile isPySpace
      if expr.isEmpty then none
      else some (String.mk name, String.mk expr)

/-- The loop body of `parse_attributes`, processing the split parts in
order and accumulating the ordered mapping. -/
def attributesGo (clause : String) :
    List String → List (String × String) →
    Except LanguageError (List (String × String))
  | [], acc => .ok acc
  | p :: ps, acc =>
    match matchAttr p with
    | none => .error ⟨"Bad syntax in attributes.", clause⟩
    | some (name, expr) =>
      if acc.any (·.1 = name) then
        .error ⟨"Duplicate attribute name in attributes.", p⟩
      else attributesGo clause ps (acc ++ [(name, expr)])

/-- The `tal.parse_attributes`. -/
def parse_attributes (clause : String) :
    Except LanguageError (List (String × String)) :=
  attributesGo clause (split_parts clause) []

example : parse_attributes "class foo;id bar" =
    .ok [("class", "foo"), ("id", "bar")] := by rfl
example : parse_attributes "class foo;class bar" =
    .error ⟨"Duplicate attribute name in attributes.", "class bar"⟩ := by rfl
example : parse_attributes "=" =
    .error ⟨"Bad syntax in attributes.", "="⟩ := by rfl

/-- First character of `NAME = [a-zA-Z_][-a-zA-Z0-9_]*`. -/
def isNameStart (c : Char) : Bool := c.isAlpha || c = '_'

/-- Continuation characters of `NAME`. -/
def isNameChar (c : Char) : Bool := c.isAlphanum || c = '_' || c = '-'

/-- A `NAME` match anchored at the head of `cs`. -/
def takeName (cs : List Char) : Option (List Char × List Char) :=
  match cs with
  | c :: rest =>
    if isNameStart c then
      some (c :: rest.takeWhile isNameChar, rest.dropWhile isNameChar)
    else none
  | [] => none

/-- The `(?:,\s*NAME)*\)` of `DEFINE_RE`, anchored; returns the consumed text
including the closing parenthesis.  `fuel` bounds the star iteration. -/
def takeParenTail : Nat → List Char → Option (List Char × List Char)
  | _, ')' :: rest => some ([')'], rest)
  | fuel + 1, ',' :: rest =>
    let sp := rest.takeWhile isPySpace
    let r2 := rest.dropWhile isPySpace
    match takeName r2 with
    | none => none
    | some (nm, r3) =>
      match takeParenTail fuel r3 with
      | none => none
      | some (t, r4) => some (',' :: (sp ++ nm ++ t), r4)
  | _, _ => none

/-- Group 2 of `DEFINE_RE`: a bare `NAME` or `\(NAME(?:,\s*NAME)*\)`,
anchored; returns the raw matched text. -/
def takeGroup2 (cs : List Char) : Option (List Char × List Char) :=
  match cs with
  | '(' :: rest =>
    match takeName rest with
    | none => none
    | some (nm, r2) =>
      match takeParenTail r2.length r2 with
      | none => none
      | some (t, r3) => some ('(' :: (nm ++ t), r3)
  | _ => takeName cs

/-- Group 2 then `\s+(.*)\Z` of `DEFINE_RE`: returns (raw group-2 text,
expression). -/
def defineBody (cs : List Char) : Option (List Char × List Char) :=
  match takeGroup2 cs with
  | none => none
  | some (g, rest) =>
    match rest with
    | c :: _ =>
      if isPySpace c then some (g, rest.dropWhile isPySpace) else none
    | [] => none

/-- One alternative of `(?:(global|local)\s+)?`: the keyword followed by at
least one whitespace character, then the body. -/
def tryScopeKw (kw : String) (cs : List Char) :
    Option (Option String × List Char × List Char) :=
  if startsList kw.data cs then
    match cs.drop kw.length with
    | c :: r =>
      if isPySpace c then
        match defineBody ((c :: r).dropWhile isPySpace) with
        | some (g, e) => some (some kw, g, e)
        | none => none
      else none
    | [] => none
  else none

/-- The `DEFINE_RE` after the leading `\s*`, with the regex backtracking order:
the scoped alternatives are tried first and the scope-less form on their
failure. -/
def matchScoped (cs : List Char) :
    Option (Option String × List Char × List Char) :=
  match tryScopeKw "global" cs with
  | some r => some r
  | none =>
    match tryScopeKw "local" cs with
    | some r => some r
    | none =>
      match defineBody cs with
      | some (g, e) => some (none, g, e)
      | none => none

/-- Python `str.strip(chars)` for a character class `p`. -/
def stripEdge (p : Char → Bool) (cs : List Char) : List Char :=
  ((cs.dropWhile p).reverse.dropWhile p).reverse

/-- The `DEFINE_RE.match` on one part plus the name post-processing of
`parse_defines`: scope defaulting, `strip('()')`, split on commas, and
whitespace-trimming of each name. -/
def matchDefine (part : String) : Option (String × List String × String) :=
  match matchScoped (part.data.dropWhile isPySpace) with
  | none => none
  | some (ctx, g, expr) =>
    let scope := ctx.getD "local"
    let names :=
      if g.head? = some '(' then
        (splitChar ',' (stripEdge (fun c => c = '(' || c = ')') g)).map
          (fun n => String.mk (stripEdge isPySpace n))
      else [String.mk g]
    some (scope, names, String.mk expr)

/-- The loop of `parse_defines`: every part must match, otherwise the
whole clause yields the non-exceptional no-match signal (`none`). -/
def definesGo : List String → Option (List (String × List String × String))
  | [] => some []
  | p :: ps =>
    match matchDefine p with
    | none => none
    | some d => (definesGo ps).map (d :: ·)

/-- The `tal.parse_defines`. -/
def parse_defines (clause : String) :
    Option (List (String × List String × String)) :=
  definesGo (split_parts clause)

example : parse_defines "local x path1; global (a,b) path2" =
    some [("local", ["x"], "path1"), ("global", ["a", "b"], "path2")] := by
  decide
example : parse_defines "x expr" = some [("local", ["x"], "expr")] := by decide
example : parse_defines "(a, b) pathExpr" =
    some [("local", ["a", "b"], "pathExpr")] := by decide
example : parse_defines "global (a" =
    some [("local", ["global"], "(a")] := by decide
example : parse_defines ";;" = none := by decide
example : parse_defines "x" = none := by decide

/-- Modelled from the spec: `XMLNS_NS` from `chameleon/namespaces.py` (not
under `src/`), "a sentinel for the XML-namespace-declaration namespace".
Only its identity matters to `prepare_attributes`. -/
def XMLNS_NS : String := "http://www.w3.org/2000/xmlns/"

/-- A static source attribute record handed to `prepare_attributes`
(fields `name`, `value`, `quote`, `space`, `eq`). -/
structure Attr where
  name : String
  value : String
  quote : String
  space : String
  eq : String
  deriving DecidableEq, Repr

/-- The 5-tuple stored per attribute by `prepare_attributes`:
(static text or `None`, quote, space, eq, dynamic expression or `None`). -/
abbrev Prepared :=
  Option String × String × String × String × Option String

/-- The drop set of `prepare_attributes`: names of static attributes whose
namespace is in `drop_ns`, or whose namespace is `XMLNS_NS` and whose value
is in `drop_ns`. -/
def computeDrop (attrs : List Attr) (ns_attributes : List (String × String))
    (drop_ns : List String) : List String :=
  (attrs.zip ns_attributes).filterMap fun p =>
    if p.2.1 ∈ drop_ns ∨ (p.2.1 = XMLNS_NS ∧ p.1.value ∈ drop_ns) then
      some p.1.name
    else none

/-- The first loop of `prepare_attributes`: emit static attributes not in
the drop set, in source order. -/
def staticPass (drop : List String) :
    List Attr → List (String × Prepared) → List (String × Prepared)
  | [], acc => acc
  | a :: rest, acc =>
    if a.name ∈ drop then staticPass drop rest acc
    else
      staticPass drop rest
        (alSet acc a.name (some a.value, a.quote, a.space, a.eq, none))

/-- The second loop of `prepare_attributes`: attach each dynamic expression
to its static entry, or append a new entry with default formatting. -/
def dynPass :
    List (String × String) → List (String × Prepared) →
    List (String × Prepared)
  | [], acc => acc
  | (n, ex) :: rest, acc =>
    match alFind acc n with
    | some (t, q, s, e, _) => dynPass rest (alSet acc n (t, q, s, e, some ex))
    | none => dynPass rest (alSet acc n (none, "\"", " ", "=", some ex))

/-- The `tal.prepare_attributes`. -/
def prepare_attributes (attrs : List Attr)
    (dyn_attributes : List (String × String))
    (ns_attributes : List (String × String)) (drop_ns : List String) :
    List (String × Prepared) :=
  dynPass dyn_attributes
    (staticPass (computeDrop attrs ns_attributes drop_ns) attrs [])

example :
    prepare_attributes [⟨"foo", "v", "\"", " ", "="⟩] [("foo", "expr")]
      [("ns1", "v")] ["ns1"] =
    [("foo", (none, "\"", " ", "=", some "expr"))] := by decide
example :
    prepare_attributes [⟨"foo", "v", "\"", " ", "="⟩] []
      [("ns1", "v")] ["ns1"] = [] := by decide

/-- The exception classes raised by the repeat runtime. -/
inductive PyErr where
  | typeError (msg : String)
  | valueError (msg : String)
  | keyError (key : String)
  deriving DecidableEq, Repr

/-- The `tal.RepeatItem`: a view over one externally advancing cursor.  The
cursor itself lives in the owning `RepeatDict`; the view keeps its
identity (`cursorId`) and the total `length`.  The number of elements
still remaining in the cursor is supplied at each property read, exactly
as the source re-queries `__length_hint__`/`__len__` on every access. -/
structure RepeatItem where
  cursorId : Nat
  length : Nat
  deriving DecidableEq, Repr

namespace RepeatItem

/-- The `RepeatItem.index = length - remaining - 1`, recomputed per read. -/
def index (it : RepeatItem) (remaining : Nat) : Int :=
  (it.length : Int) - (remaining : Int) - 1

def start (it : RepeatItem) (remaining : Nat) : Bool :=
  it.index remaining == 0

/-- The `RepeatItem.end` (`end` is a Lean keyword, hence the underscore). -/
def end_ (it : RepeatItem) (remaining : Nat) : Bool :=
  it.index remaining == (it.length : Int) - 1

def number (it : RepeatItem) (remaining : Nat) : Int :=
  it.index remaining + 1

/-- The `index % 2 == 1 and 'odd' or ''` (Python `%` on `int` is `Int.emod`
for a positive modulus). -/
def odd (it : RepeatItem) (remaining : Nat) : String :=
  if Int.emod (it.index remaining) 2 == 1 then "odd" else ""

def even (it : RepeatItem) (remaining : Nat) : String :=
  if Int.emod (it.index remaining) 2 == 0 then "even" else ""

/-- The `while 1: divmod` loop of `RepeatItem._letter`.  `fuel` bounds the
loop; `n + 1` steps always suffice since the quotient strictly shrinks. -/
def letterAux (base : Nat) : Nat → Nat → List Char → String
  | 0, _, acc => String.mk acc
  | fuel + 1, n, acc =>
    let acc2 := Char.ofNat (base + n % 26) :: acc
    if n / 26 = 0 then String.mk acc2 else letterAux base fuel (n / 26) acc2

/-- The `RepeatItem._letter` as a function of the derived index: raises
`TypeError("No iteration position")` when the index is negative. -/
def letterFrom (base : Nat) (index : Int) : Except PyErr String :=
  if index < 0 then .error (.typeError "No iteration position")
  else .ok (letterAux base (index.toNat + 1) index.toNat [])

def letter (it : RepeatItem) (remaining : Nat) : Except PyErr String :=
  letterFrom 97 (it.index remaining)

def Letter (it : RepeatItem) (remaining : Nat) : Except PyErr String :=
  letterFrom 65 (it.index remaining)

/-- The subtractive value table of `RepeatItem.Roman`. -/
def rnvalues : List (Nat × String) :=
  [(1000, "M"), (900, "CM"), (500, "D"), (400, "CD"), (100, "C"),
   (90, "XC"), (50, "L"), (40, "XL"), (10, "X"), (9, "IX"), (5, "V"),
   (4, "IV"), (1, "I")]

/-- Python `str * int` (empty for a non-positive count). -/
def strRepeat (s : String) : Nat → String
  | 0 => ""
  | n + 1 => s ++ strRepeat s n

/-- The `for v, r in rnvalues` loop (`divmod` is floor division, i.e.
`Int.ediv`/`Int.emod` for the positive table values). -/
def romanAux : List (Nat × String) → Int → String → String
  | [], _, s => s
  | (v, r) :: rest, n, s =>
    romanAux rest (Int.emod n (v : Int))
      (s ++ strRepeat r (Int.ediv n (v : Int)).toNat)

def Roman (it : RepeatItem) (remaining : Nat) : String :=
  romanAux rnvalues (it.index remaining + 1) ""

def roman (it : RepeatItem) (remaining : Nat) : String :=
  (it.Roman remaining).toLower

end RepeatItem

example : RepeatItem.index ⟨0, 4⟩ 3 = 0 := by decide
example : RepeatItem.letter ⟨0, 4⟩ 0 = .ok "d" := by rfl
example : RepeatItem.letter ⟨0, 28⟩ 1 = .ok "ba" := by rfl
example : RepeatItem.Roman ⟨0, 4⟩ 0 = "IV" := by decide
example : RepeatItem.letter ⟨0, 0⟩ 0 =
    .error (.typeError "No iteration position") := by rfl
example : RepeatItem.odd ⟨0, 0⟩ 0 = "odd" := by decide

/-- One slot of the repeat dictionary: the cursor (by identity), the total
length, and the lazily cached `RepeatItem` view. -/
structure Entry where
  cursorId : Nat
  length : Nat
  cached : Option RepeatItem
  deriving DecidableEq, Repr

/-- The `tal.RepeatDict`: the registry state.  `nextId` generates the identity
of the fresh iterator built by each registration. -/
structure RepeatDict where
  entries : List (String × Entry)
  nextId : Nat
  deriving DecidableEq, Repr

/-- A Python value passed to `RepeatDict.__call__`: an iterable (whose
elements this core never inspects beyond their count), `None`, or a
non-iterable object of the given type name. -/
inductive PyVal where
  | iterable (elems : List Int)
  | noneVal
  | notIterable (typeName : String)
  deriving DecidableEq, Repr

namespace RepeatDict

/-- The `RepeatDict.__call__(key, iterable)`: coerce to a tuple (a `TypeError`
for a non-iterable non-`None` value is raised before anything is stored,
so the state comes back unchanged), build a fresh cursor, store
`(cursor, length, None)` (overwriting any prior entry) and return
`(cursor, length)`. -/
def call (d : RepeatDict) (key : String) (v : PyVal) :
    Except PyErr (Nat × Nat) × RepeatDict :=
  match v with
  | .notIterable tn =>
    (.error (.typeError ("\x27" ++ tn ++ "\x27 object is not iterable")), d)
  | .noneVal =>
    (.ok (d.nextId, 0),
     ⟨alSet d.entries key ⟨d.nextId, 0, none⟩, d.nextId + 1⟩)
  | .iterable xs =>
    (.ok (d.nextId, xs.length),
     ⟨alSet d.entries key ⟨d.nextId, xs.length, none⟩, d.nextId + 1⟩)

/-- The `RepeatDict.__getitem__`: build the `RepeatItem` lazily on first read,
cache it back into the slot, and return the cached view afterwards. -/
def getitem (d : RepeatDict) (key : String) :
    Except PyErr (RepeatItem × RepeatDict) :=
  match alFind d.entries key with
  | none => .error (.keyError key)
  | some e =>
    match e.cached with
    | some it => .ok (it, d)
    | none =>
      .ok (⟨e.cursorId, e.length⟩,
           ⟨alSet d.entries key ⟨e.cursorId, e.length, some ⟨e.cursorId, e.length⟩⟩,
            d.nextId⟩)

/-- The `RepeatDict.get`. -/
def getDefault (d : RepeatDict) (key : String) (dflt : RepeatItem) :
    Except PyErr (RepeatItem × RepeatDict) :=
  match alFind d.entries key with
  | none => .ok (dflt, d)
  | some _ => d.getitem key

/-- Well-formedness of a registry state: every stored cursor identity, and
the identity inside every cached view, is below `nextId`.  Every state
reachable from the empty registry satisfies this. -/
def WFb (d : RepeatDict) : Bool :=
  d.entries.all fun p =>
    p.2.cursorId < d.nextId &&
      match p.2.cached with
      | none => true
      | some it => it.cursorId < d.nextId

end RepeatDict

example :
    (RepeatDict.call ⟨[], 0⟩ "x" (.iterable [1, 2, 3])).2 =
    ⟨[("x", ⟨0, 3, none⟩)], 1⟩ := by decide
example :
    RepeatDict.getitem ⟨[("x", ⟨0, 3, none⟩)], 1⟩ "x" =
    .ok (⟨0, 3⟩, ⟨[("x", ⟨0, 3, some ⟨0, 3⟩⟩)], 1⟩) := by rfl
example :
    RepeatDict.getitem ⟨[("x", ⟨0, 3, some ⟨0, 3⟩⟩)], 1⟩ "x" =
    .ok (⟨0, 3⟩, ⟨[("x", ⟨0, 3, some ⟨0, 3⟩⟩)], 1⟩) := by rfl

instance {ε α : Type} [DecidableEq ε] [DecidableEq α] :
    DecidableEq (Except ε α) := fun x y =>
  match x, y with
  | .ok a, .ok b =>
    if h : a = b then isTrue (by rw [h])
    else isFalse (by intro hc; cases hc; exact h rfl)
  | .error a, .error b =>
    if h : a = b then isTrue (by rw [h])
    else isFalse (by intro hc; cases hc; exact h rfl)
  | .ok _, .error _ => isFalse (by intro hc; cases hc)
  | .error _, .ok _ => isFalse (by intro hc; cases hc)

/-! ### Association-list lemmas -/

theorem alFind_alSet_same {α : Type} (l : List (String × α)) (k : String)
    (v : α) : alFind (alSet l k v) k = some v := by
  induction l with
  | nil => simp [alSet, alFind]
  | cons p rest ih =>
    obtain ⟨k₀, v₀⟩ := p
    by_cases hk : k₀ = k
    · subst hk; simp [alSet, alFind]
    · simp [alSet, alFind, hk, ih]

theorem alFind_alSet_ne {α : Type} {k k' : String} (v : α) (h : k' ≠ k) :
    ∀ l : List (String × α), alFind (alSet l k v) k' = alFind l k' := by
  intro l
  induction l with
  | nil => simp [alSet, alFind, Ne.symm h]
  | cons p rest ih =>
    obtain ⟨k₀, v₀⟩ := p
    by_cases hk : k₀ = k
    · subst hk; simp [alSet, alFind, Ne.symm h]
    · simp [alSet, alFind, hk, ih]

theorem alFind_mem {α : Type} :
    ∀ {l : List (String × α)} {k : String} {v : α},
      alFind l k = some v → (k, v) ∈ l := by
  intro l
  induction l with
  | nil => intro k v h; cases h
  | cons p rest ih =>
    intro k v h
    obtain ⟨k₀, v₀⟩ := p
    simp only [alFind] at h
    by_cases hk : k₀ = k
    · rw [if_pos hk] at h
      injection h with h2
      subst hk; subst h2
      exact .head _
    · rw [if_neg hk] at h
      exact .tail _ (ih h)

/-! ### C1: dropped attributes vs. dynamic expressions -/

/-- C1 counterexample: a static attribute `foo` whose namespace `ns1` is in
`drop_ns` (so `foo` is in the computed drop set) is nevertheless present in
the mapping returned by `prepare_attributes` when `dyn_attributes` also
supplies an expression under the name `foo` — the claim says it must be
entirely absent. -/
theorem C1_counterexample :
    "foo" ∈ computeDrop [⟨"foo", "v", "\"", " ", "="⟩] [("ns1", "v")]
      ["ns1"] ∧
    prepare_attributes [⟨"foo", "v", "\"", " ", "="⟩] [("foo", "expr")]
      [("ns1", "v")] ["ns1"] =
      [("foo", (none, "\"", " ", "=", some "expr"))] ∧
    alFind
      (prepare_attributes [⟨"foo", "v", "\"", " ", "="⟩] [("foo", "expr")]
        [("ns1", "v")] ["ns1"]) "foo" =
      some (none, "\"", " ", "=", some "expr") :=
  ⟨by decide, by decide, by decide⟩

theorem staticPass_not_found {k : String} {drop : List String}
    (hk : k ∈ drop) :
    ∀ (attrs : List Attr) (acc : List (String × Prepared)),
      alFind acc k = none → alFind (staticPass drop attrs acc) k = none := by
  intro attrs
  induction attrs with
  | nil => intro acc h; simpa [staticPass] using h
  | cons a rest ih =>
    intro acc h
    by_cases hd : a.name ∈ drop
    · simpa [staticPass, hd] using ih acc h
    · have hne : k ≠ a.name := fun he => hd (he ▸ hk)
      simp only [staticPass, if_neg hd]
      exact ih _ (by rw [alFind_alSet_ne _ hne]; exact h)

theorem dynPass_not_found {k : String} :
    ∀ (dyn : List (String × String)) (acc : List (String × Prepared)),
      (∀ p ∈ dyn, p.1 ≠ k) → alFind acc k = none →
      alFind (dynPass dyn acc) k = none := by
  intro dyn
  induction dyn with
  | nil => intro acc _ h; simpa [dynPass] using h
  | cons p rest ih =>
    intro acc hall h
    obtain ⟨n, ex⟩ := p
    have hne : k ≠ n := fun he => hall (n, ex) (.head _) he.symm
    have htail : ∀ q ∈ rest, q.1 ≠ k := fun q hq => hall q (.tail _ hq)
    cases hf : alFind acc n with
    | none =>
      simp only [dynPass, hf]
      exact ih _ htail (by rw [alFind_alSet_ne _ hne]; exact h)
    | some pv =>
      obtain ⟨t, q, s, e, old⟩ := pv
      simp only [dynPass, hf]
      exact ih _ htail (by rw [alFind_alSet_ne _ hne]; exact h)

/-- C1 amended: a static attribute whose namespace is in the drop set (or
is a matching XML-namespace declaration) is absent from the static part of
the result, and is entirely absent from the returned mapping provided
`dyn_attributes` does not also supply an expression under that name; when
it does, the name reappears as a dynamic-only entry with synthesized
default formatting (as `C1_counterexample` shows). -/
theorem C1_amended (attrs : List Attr) (dyn ns : List (String × String))
    (drop_ns : List String) (k : String)
    (h1 : k ∈ computeDrop attrs ns drop_ns)
    (h2 : ∀ p ∈ dyn, p.1 ≠ k) :
    alFind (prepare_attributes attrs dyn ns drop_ns) k = none := by
  unfold prepare_attributes
  exact dynPass_not_found dyn _ h2 (staticPass_not_found h1 attrs [] rfl)

/-- C1 amended, witness at a concrete input. -/
theorem C1_amended_witness :
    "a" ∈ computeDrop [⟨"a", "v", "\"", " ", "="⟩] [("ns1", "v")] ["ns1"] ∧
    alFind
      (prepare_attributes [⟨"a", "v", "\"", " ", "="⟩] [("b", "e")]
        [("ns1", "v")] ["ns1"]) "a" = none :=
  ⟨by decide, C1_amended _ _ _ _ _ (by decide) (by decide)⟩

/-! ### C2: letter/Letter on a negative index -/

/-- C2 counterexample: for a `RepeatItem` whose derived index is negative
(length 0, cursor not advanced, index = -1), reading `letter` fails with
`TypeError("No iteration position")`, not with the `ValueError` the claim
states (and likewise for `Letter`). -/
theorem C2_counterexample :
    RepeatItem.index ⟨0, 0⟩ 0 < 0 ∧
    RepeatItem.letter ⟨0, 0⟩ 0 =
      .error (.typeError "No iteration position") ∧
    RepeatItem.letter ⟨0, 0⟩ 0 ≠
      .error (.valueError "no iteration position") ∧
    RepeatItem.Letter ⟨0, 0⟩ 0 ≠
      .error (.valueError "no iteration position") := by
  decide

/-- C2 amended: for every `RepeatItem` whose derived index is negative,
reading the `letter` or `Letter` property fails with
`TypeError("No iteration position")`. -/
theorem C2_amended (it : RepeatItem) (remaining : Nat)
    (h : it.index remaining < 0) :
    it.letter remaining = .error (.typeError "No iteration position") ∧
    it.Letter remaining = .error (.typeError "No iteration position") := by
  constructor
  · unfold RepeatItem.letter RepeatItem.letterFrom
    exact if_pos h
  · unfold RepeatItem.Letter RepeatItem.letterFrom
    exact if_pos h

/-- C2 amended, witness at a concrete input. -/
theorem C2_amended_witness :
    RepeatItem.letter ⟨0, 0⟩ 0 =
      .error (.typeError "No iteration position") ∧
    RepeatItem.Letter ⟨0, 0⟩ 0 =
      .error (.typeError "No iteration position") :=
  C2_amended ⟨0, 0⟩ 0 (by decide)

/-! ### C3: RepeatItem position-derived properties -/

/-- C3: over a 4-element sequence, at external position 0 (remaining 3)
`index = 0`, `start`, not `end`, `number = 1`, `odd = ""`,
`even = "even"`, `letter = "a"`, `Roman = "I"`; at position 3 (remaining
0) `index = 3`, `end`, `letter = "d"`, `Roman = "IV"`; at index 26
`letter = "ba"`; and `index` is always `length - remaining - 1`,
recomputed from the remaining count on every read. -/
theorem C3_repeat_item_positions :
    RepeatItem.index ⟨0, 4⟩ 3 = 0 ∧
    RepeatItem.start ⟨0, 4⟩ 3 = true ∧
    RepeatItem.end_ ⟨0, 4⟩ 3 = false ∧
    RepeatItem.number ⟨0, 4⟩ 3 = 1 ∧
    RepeatItem.odd ⟨0, 4⟩ 3 = "" ∧
    RepeatItem.even ⟨0, 4⟩ 3 = "even" ∧
    RepeatItem.letter ⟨0, 4⟩ 3 = .ok "a" ∧
    RepeatItem.Roman ⟨0, 4⟩ 3 = "I" ∧
    RepeatItem.index ⟨0, 4⟩ 0 = 3 ∧
    RepeatItem.end_ ⟨0, 4⟩ 0 = true ∧
    RepeatItem.letter ⟨0, 4⟩ 0 = .ok "d" ∧
    RepeatItem.Roman ⟨0, 4⟩ 0 = "IV" ∧
    RepeatItem.letter ⟨0, 28⟩ 1 = .ok "ba" ∧
    ∀ (cid l r : Nat),
      RepeatItem.index ⟨cid, l⟩ r = (l : Int) - (r : Int) - 1 := by
  refine ⟨by decide, by decide, by decide, by decide, by decide, by decide,
    by decide, by decide, by decide, by decide, by decide, by decide,
    by decide, fun cid l r => rfl⟩

/-! ### C4: RepeatDict lazy caching and re-registration -/

theorem getitem_notfound {d : RepeatDict} {k : String}
    (hf : alFind d.entries k = none) :
    d.getitem k = .error (.keyError k) := by
  unfold RepeatDict.getitem
  rw [hf]

theorem getitem_cached {d : RepeatDict} {k : String} {cid len : Nat}
    {it0 : RepeatItem}
    (hf : alFind d.entries k = some ⟨cid, len, some it0⟩) :
    d.getitem k = .ok (it0, d) := by
  unfold RepeatDict.getitem
  rw [hf]

theorem getitem_uncached {d : RepeatDict} {k : String} {cid len : Nat}
    (hf : alFind d.entries k = some ⟨cid, len, none⟩) :
    d.getitem k =
      .ok (⟨cid, len⟩,
        ⟨alSet d.entries k ⟨cid, len, some ⟨cid, len⟩⟩, d.nextId⟩) := by
  unfold RepeatDict.getitem
  rw [hf]

/-- C4: (1) a lookup caches and returns a `RepeatItem`, and a second
lookup of the same key returns the identical item with the state
untouched; (2) a registration stores the fresh cursor and length with the
cached view cleared; (3) re-registering a key whose slot already holds a
cached view makes the next lookup build a fresh `RepeatItem` from the
newly stored cursor and length, distinct from the old cached one. -/
theorem C4_repeat_dict_caching :
    (∀ (d : RepeatDict) (k : String) (it : RepeatItem) (d' : RepeatDict),
       d.getitem k = .ok (it, d') → d'.getitem k = .ok (it, d')) ∧
    (∀ (d : RepeatDict) (k : String) (xs : List Int),
       alFind ((d.call k (.iterable xs)).2).entries k =
         some ⟨d.nextId, xs.length, none⟩ ∧
       ((d.call k (.iterable xs)).2).nextId = d.nextId + 1) ∧
    (∀ (d : RepeatDict) (k : String) (xs : List Int) (e : Entry)
       (itOld : RepeatItem),
       RepeatDict.WFb d = true → alFind d.entries k = some e →
       e.cached = some itOld →
       ∃ d2, ((d.call k (.iterable xs)).2).getitem k =
           .ok (⟨d.nextId, xs.length⟩, d2) ∧
         (⟨d.nextId, xs.length⟩ : RepeatItem) ≠ itOld) := by
  refine ⟨?_, ?_, ?_⟩
  · intro d k it d' h
    cases hf : alFind d.entries k with
    | none =>
      rw [getitem_notfound hf] at h
      cases h
    | some e =>
      obtain ⟨cid, len, cached⟩ := e
      cases cached with
      | some it0 =>
        rw [getitem_cached hf] at h
        injection h with h1
        injection h1 with h2 h3
        subst h2; subst h3
        exact getitem_cached hf
      | none =>
        rw [getitem_uncached hf] at h
        injection h with h1
        injection h1 with h2 h3
        subst h2; subst h3
        exact getitem_cached (alFind_alSet_same _ _ _)
  · intro d k xs
    exact ⟨alFind_alSet_same _ _ _, rfl⟩
  · intro d k xs e itOld hwf hf hc
    have hmem : (k, e) ∈ d.entries := alFind_mem hf
    have hlt : itOld.cursorId < d.nextId := by
      unfold RepeatDict.WFb at hwf
      have hall := List.all_eq_true.mp hwf (k, e) hmem
      simp only at hall
      rw [hc] at hall
      simp only [Bool.and_eq_true, decide_eq_true_eq] at hall
      exact hall.2
    refine ⟨_, getitem_uncached (alFind_alSet_same _ _ _), ?_⟩
    intro he
    have hcid : (⟨d.nextId, xs.length⟩ : RepeatItem).cursorId =
        itOld.cursorId := by rw [he]
    simp only [RepeatItem.cursorId] at hcid
    omega

/-- C4, witness: both the idempotent-second-lookup part and the
fresh-view-after-re-registration part applied at concrete states. -/
theorem C4_witness :
    RepeatDict.getitem ⟨[("x", ⟨0, 3, some ⟨0, 3⟩⟩)], 1⟩ "x" =
      .ok (⟨0, 3⟩, ⟨[("x", ⟨0, 3, some ⟨0, 3⟩⟩)], 1⟩) ∧
    (∃ d2,
      (RepeatDict.getitem
        ((RepeatDict.call ⟨[("x", ⟨0, 3, some ⟨0, 3⟩⟩)], 1⟩ "x"
          (.iterable [7, 8])).2) "x") = .ok (⟨1, 2⟩, d2) ∧
      (⟨1, 2⟩ : RepeatItem) ≠ (⟨0, 3⟩ : RepeatItem)) :=
  ⟨C4_repeat_dict_caching.1 ⟨[("x", ⟨0, 3, none⟩)], 1⟩ "x" ⟨0, 3⟩ _ rfl,
   C4_repeat_dict_caching.2.2 ⟨[("x", ⟨0, 3, some ⟨0, 3⟩⟩)], 1⟩ "x" [7, 8]
     ⟨0, 3, some ⟨0, 3⟩⟩ ⟨0, 3⟩ (by decide) rfl rfl⟩

/-! ### C9: registering a non-iterable value -/

/-- C9: calling the `RepeatDict` registry with a value that is neither
iterable nor `None` raises `TypeError` before anything is stored: the
state comes back unchanged, so any previously registered entry — cached
`RepeatItem` included — is still returned by subsequent lookups. -/
theorem C9_register_not_iterable (d : RepeatDict) (k k' tn : String) :
    d.call k (.notIterable tn) =
      (.error (.typeError ("\x27" ++ tn ++ "\x27 object is not iterable")),
       d) ∧
    ((d.call k (.notIterable tn)).2).getitem k' = d.getitem k' :=
  ⟨rfl, rfl⟩

/-! ### split_parts lemmas -/

theorem nul_not_mem_restore (cs : List Char) : nulChar ∉ restoreNul cs := by
  intro h
  obtain ⟨c, _, hc⟩ := List.mem_map.mp h
  by_cases hn : c = nulChar
  · rw [if_pos hn] at hc
    exact absurd hc (by decide)
  · rw [if_neg hn] at hc
    exact hn hc

theorem mem_dropTrailing {cs : List Char} {parts : List (List Char)}
    (h : cs ∈ dropTrailing parts) : cs ∈ parts := by
  unfold dropTrailing at h
  split at h
  · exact (List.dropLast_sublist parts).mem h
  · exact h

/-- C6 counterexample: `split_parts "x &amp; y; z"` keeps the leading
space of the second part, so the result is `["x &amp; y", " z"]` and not
the claimed `["x &amp; y", "z"]` (parts are not stripped). -/
theorem C6_counterexample :
    split_parts "x &amp; y; z" = ["x &amp; y", " z"] ∧
    split_parts "x &amp; y; z" ≠ ["x &amp; y", "z"] := by
  refine ⟨by decide, by decide⟩

/-- C6 amended: character-entity references matching `ENTITY_RE` survive
`split_parts` unchanged even when adjacent to real semicolon delimiters;
in particular `split_parts "x &amp; y; z" = ["x &amp; y", " z"]` (the
second part keeps its leading space, since parts are not stripped), and
likewise for a numeric entity and for an entity whose own semicolon is
the last character of a part. -/
theorem C6_amended :
    split_parts "x &amp; y; z" = ["x &amp; y", " z"] ∧
    split_parts "a &#160; b; c" = ["a &#160; b", " c"] ∧
    split_parts "&amp;x" = ["&amp;x"] ∧
    split_parts "&amp;;next" = ["&amp;", "next"] := by
  refine ⟨by decide, by decide, by decide, by decide⟩

/-! ### C10: the NUL escape sentinel -/

theorem mem_splitPartsL_restore {cs arg : List Char}
    (h : cs ∈ splitPartsL arg) : ∃ cs', cs = restoreNul cs' := by
  unfold splitPartsL at h
  have h2 := mem_dropTrailing h
  obtain ⟨cs', _, rfl⟩ := List.mem_map.mp h2
  exact ⟨cs', rfl⟩

/-- C10: `split_parts` uses NUL as its internal escape sentinel, so a NUL
character in the input is silently rewritten to a literal semicolon
(`split_parts "a\x00b" = ["a;b"]`), and no returned part ever contains a
NUL character. -/
theorem C10_nul_sentinel :
    (split_parts "a\x00b" = ["a;b"] ∧
      split_parts "a\x00b" ≠ ["a\x00b"]) ∧
    ∀ (s p : String), p ∈ split_parts s → nulChar ∉ p.data := by
  refine ⟨⟨by decide, by decide⟩, ?_⟩
  intro s p hp
  unfold split_parts at hp
  obtain ⟨cs, hcs, rfl⟩ := List.mem_map.mp hp
  obtain ⟨cs', rfl⟩ := mem_splitPartsL_restore hcs
  exact nul_not_mem_restore cs'

/-- C10, witness at a concrete input. -/
theorem C10_witness : nulChar ∉ String.data "a;b" :=
  C10_nul_sentinel.2 "a\x00b" "a;b" (by decide)

/-! ### C7: the define-clause grammar -/

theorem definesGo_none {p : String} :
    ∀ ps : List String, p ∈ ps → matchDefine p = none →
      definesGo ps = none := by
  intro ps
  induction ps with
  | nil => intro h _; cases h
  | cons q rest ih =>
    intro hmem hnone
    cases hmem with
    | head => simp only [definesGo, hnone]
    | tail _ hm =>
      cases hq : matchDefine q with
      | none => simp only [definesGo, hq]
      | some d =>
        simp only [definesGo, hq, ih hm hnone]
        rfl

/-- C7: `parse_defines` returns one (scope, names, expression) triple per
part when every part matches (scope defaulting to `"local"`, parenthesized
multi-name forms split on commas with each name trimmed), and returns the
non-exceptional no-match signal for the whole clause as soon as any part
fails to match the define grammar. -/
theorem C7_parse_defines :
    parse_defines "local x path1; global (a,b) path2" =
      some [("local", ["x"], "path1"), ("global", ["a", "b"], "path2")] ∧
    parse_defines "x expr" = some [("local", ["x"], "expr")] ∧
    parse_defines "(a, b) pathExpr" =
      some [("local", ["a", "b"], "pathExpr")] ∧
    ∀ (clause p : String), p ∈ split_parts clause → matchDefine p = none →
      parse_defines clause = none := by
  refine ⟨by decide, by decide, by decide, ?_⟩
  intro clause p hmem hnone
  unfold parse_defines
  exact definesGo_none _ hmem hnone

/-- C7, witness at a concrete input:  the clause `";;"` splits into the
single part `";"`, which does not match the define grammar. -/
theorem C7_witness : parse_defines ";;" = none :=
  C7_parse_defines.2.2.2 ";;" ";" (by decide) (by decide)

/-! ### C8: the attributes-clause grammar -/

theorem attributesGo_error {p : String} (clause : String) :
    ∀ (ps : List String) (acc : List (String × String)),
      p ∈ ps → matchAttr p = none →
      ∃ e, attributesGo clause ps acc = .error e := by
  intro ps
  induction ps with
  | nil => intro acc h _; cases h
  | cons q rest ih =>
    intro acc hmem hnone
    cases hq : matchAttr q with
    | none =>
      exact ⟨⟨"Bad syntax in attributes.", clause⟩,
        by simp only [attributesGo, hq]⟩
    | some ne =>
      obtain ⟨n, ex⟩ := ne
      cases hmem with
      | head =>
        rw [hnone] at hq
        cases hq
      | tail _ hm =>
        by_cases hdup : acc.any (·.1 = n)
        · exact ⟨⟨"Duplicate attribute name in attributes.", q⟩,
            by simp only [attributesGo, hq, if_pos hdup]⟩
        · obtain ⟨e, he⟩ := ih (acc ++ [(n, ex)]) hm hnone
          exact ⟨e, by simp only [attributesGo, hq, if_neg hdup]; exact he⟩

theorem attributesGo_ok (clause : String) :
    ∀ (ps : List String) (acc res : List (String × String)),
      attributesGo clause ps acc = .ok res →
      res = acc ++ ps.map (fun p => (matchAttr p).getD ("", "")) ∧
      ((acc.map Prod.fst).Nodup → (res.map Prod.fst).Nodup) := by
  intro ps
  induction ps with
  | nil =>
    intro acc res h
    simp only [attributesGo] at h
    cases h
    exact ⟨by simp, fun hn => hn⟩
  | cons q rest ih =>
    intro acc res h
    cases hq : matchAttr q with
    | none =>
      simp only [attributesGo, hq] at h
      cases h
    | some ne =>
      obtain ⟨n, ex⟩ := ne
      simp only [attributesGo, hq] at h
      by_cases hdup : acc.any (·.1 = n)
      · rw [if_pos hdup] at h; cases h
      · rw [if_neg hdup] at h
        obtain ⟨h1, h2⟩ := ih (acc ++ [(n, ex)]) res h
        have hnot : ∀ x ∈ acc.map Prod.fst, x ≠ n := by
          intro x hx he
          subst he
          obtain ⟨pp, hpp, hfst⟩ := List.mem_map.mp hx
          exact hdup (List.any_eq_true.mpr ⟨pp, hpp, by simp [hfst]⟩)
        constructor
        · rw [h1, List.map_cons, hq]
          simp [List.append_assoc]
        · intro hacc
          apply h2
          rw [List.map_append]
          refine List.Nodup.append hacc (by simp) ?_
          intro x hx hxn
          exact hnot x hx (by simpa using hxn)

/-- C8: `parse_attributes` returns the ordered name-to-expression mapping
in part order; a part that does not match `ATTR_RE` produces a grammar
error; a repeated name produces a duplicate-name error rather than a
silent overwrite, so a successful result never contains a duplicate
name. -/
theorem C8_parse_attributes :
    parse_attributes "class foo;id bar" =
      .ok [("class", "foo"), ("id", "bar")] ∧
    parse_attributes "class foo;class bar" =
      .error ⟨"Duplicate attribute name in attributes.", "class bar"⟩ ∧
    (∀ (clause p : String), p ∈ split_parts clause → matchAttr p = none →
       ∃ e, parse_attributes clause = .error e) ∧
    (∀ (clause : String) (res : List (String × String)),
       parse_attributes clause = .ok res →
       res = (split_parts clause).map
         (fun p => (matchAttr p).getD ("", "")) ∧
       (res.map Prod.fst).Nodup) := by
  refine ⟨by decide, by decide, ?_, ?_⟩
  · intro clause p hmem hnone
    exact attributesGo_error clause (split_parts clause) [] hmem hnone
  · intro clause res h
    obtain ⟨h1, h2⟩ := attributesGo_ok clause (split_parts clause) [] res h
    exact ⟨by simpa using h1, h2 (by simp)⟩

/-- C8, witness at concrete inputs: the clause `"="` has a part that does
not match, and a successful parse of `"class foo;id bar"` is in part
order with distinct names. -/
theorem C8_witness :
    (∃ e, parse_attributes "=" = .error e) ∧
    ([("class", "foo"), ("id", "bar")] =
      (split_parts "class foo;id bar").map
        (fun p => (matchAttr p).getD ("", "")) ∧
     ([("class", "foo"), ("id", "bar")].map Prod.fst).Nodup) :=
  ⟨C8_parse_attributes.2.2.1 "=" "=" (by decide) (by decide),
   C8_parse_attributes.2.2.2 "class foo;id bar"
     [("class", "foo"), ("id", "bar")] (by decide)⟩

end Tal
